import Mathlib

/-!
# Verification of the oom-arithmetic-trainer core

Shallow embedding of the Rust core of the `oom-arithmetic-trainer` repository
(`src/scoring.rs`, `src/parser.rs`, `src/challenge.rs`) and proofs about the
specification's claims.

Modelling conventions:
* Rust `f64` values are modelled as exact numbers: the answer parser and the
  challenge generator only ever manipulate values that are exactly
  representable (small decimals scaled by powers of ten), so they are
  modelled over `ℚ`; the scoring functions apply `log10` and are modelled
  over `ℝ` (with `Real.logb 10`).  `f64::MAX` is the exact rational value
  `2^1024 - 2^971` of the IEEE-754 double maximum.
* Rust strings are modelled as `List Char` pipelines wrapped in `String`,
  with byte-level operations replaced by the equivalent character-level
  operations (all slicing in the source happens on ASCII boundaries).
* `f64::from_str` is modelled by `rustParseF64` implementing the documented
  grammar `Sign? (Digit+ ('.' Digit*)? | '.' Digit+) ([eE] Sign? Digit+)?`;
  the non-finite literals (`inf`, `nan`) are outside the model, no claim
  involves them.
-/

/-! ## Character and list-of-characters helpers (model of Rust `str` ops) -/

/-- Model of Rust's whitespace test for the ASCII inputs of the claims. -/
def isWsChar (c : Char) : Bool :=
  c == ' ' || c == '\t' || c == '\n' || c == '\r'

/-- Model of `char::to_lowercase` restricted to ASCII (all claim inputs are
ASCII letters, digits and symbols; `×` is unchanged by lowercasing). -/
def toLowerChar (c : Char) : Char :=
  if 'A' ≤ c && c ≤ 'Z' then Char.ofNat (c.toNat + 32) else c

/-- Model of `str::trim`: drop whitespace from both ends. -/
def trimChars (l : List Char) : List Char :=
  ((l.dropWhile isWsChar).reverse.dropWhile isWsChar).reverse

/-- `trim().to_lowercase()` applied by `parse_answer` to its input. -/
def normalize_input (input : String) : String :=
  ⟨(trimChars input.toList).map toLowerChar⟩

/-- Decide whether `p` is a prefix of `l` (Bool-valued, structural). -/
def isPrefixL : List Char → List Char → Bool
  | [], _ => true
  | _ :: _, [] => false
  | p :: ps, c :: cs => p == c && isPrefixL ps cs

/-- Model of `str::ends_with`. -/
def endsWithL (l suf : List Char) : Bool :=
  isPrefixL suf.reverse l.reverse

/-- Model of `str::strip_suffix` (partial application after `ends_with`
succeeded): remove the last `n` characters. -/
def stripSuffixL (l : List Char) (n : ℕ) : List Char :=
  l.take (l.length - n)

/-- Model of `str::split` on a non-empty pattern, fuelled for structural
termination (fuel `l.length + 1` always suffices for a non-empty pattern). -/
def splitOnFuel : ℕ → List Char → List Char → List Char → List (List Char)
  | 0, l, _, acc => [acc.reverse ++ l]
  | fuel + 1, l, pat, acc =>
    match l with
    | [] => [acc.reverse]
    | c :: rest =>
      if isPrefixL pat l then
        acc.reverse :: splitOnFuel fuel (l.drop pat.length) pat []
      else
        splitOnFuel fuel rest pat (c :: acc)

/-- Model of `str::split` collecting all pieces (non-empty pattern). -/
def splitOnL (l pat : List Char) : List (List Char) :=
  splitOnFuel (l.length + 1) l pat []

/-- Numeric value of a digit string (most significant digit first). -/
def digitsToNat (l : List Char) : ℕ :=
  l.foldl (fun a c => 10 * a + (c.toNat - 48)) 0

/-! ## Model of `f64::from_str` and `i32::from_str` -/

/-- Exponent digits of a float literal: one or more digits, nothing after. -/
def parseExpDigits (l : List Char) : Option ℤ :=
  if l.isEmpty || !(l.all Char.isDigit) then none else some (digitsToNat l : ℤ)

/-- Signed exponent of a float literal. -/
def parseExp (l : List Char) : Option ℤ :=
  match l with
  | '+' :: r => parseExpDigits r
  | '-' :: r => (parseExpDigits r).map (fun e => -e)
  | _ => parseExpDigits l

/-- Unsigned part of the `f64::from_str` grammar:
`(Digit+ ('.' Digit*)? | '.' Digit+) ([eE] Sign? Digit+)?`. -/
def rustParseF64Core (l : List Char) : Option ℚ :=
  let ip := l.takeWhile Char.isDigit
  let r1 := l.dropWhile Char.isDigit
  let fpR : List Char × List Char :=
    match r1 with
    | '.' :: r => (r.takeWhile Char.isDigit, r.dropWhile Char.isDigit)
    | _ => ([], r1)
  if ip.isEmpty && fpR.1.isEmpty then none
  else
    let mant : ℚ := (digitsToNat ip : ℚ) + (digitsToNat fpR.1 : ℚ) / 10 ^ fpR.1.length
    match fpR.2 with
    | [] => some mant
    | 'e' :: r3 => (parseExp r3).map (fun e => mant * 10 ^ e)
    | 'E' :: r3 => (parseExp r3).map (fun e => mant * 10 ^ e)
    | _ => none

/-- Model of `str::parse::<f64>()` on exactly-representable decimal literals
(see the module docstring for the grammar; `inf`/`nan` are out of model). -/
def rustParseF64 (l : List Char) : Option ℚ :=
  match l with
  | '+' :: r => rustParseF64Core r
  | '-' :: r => (rustParseF64Core r).map (fun v => -v)
  | _ => rustParseF64Core l

/-- Model of `str::parse::<i32>()`: optional sign, one or more digits,
result must fit in a 32-bit signed integer. -/
def rustParseI32 (l : List Char) : Option ℤ :=
  let signed : Option ℤ :=
    match l with
    | '+' :: r => if r.isEmpty || !(r.all Char.isDigit) then none else some (digitsToNat r : ℤ)
    | '-' :: r => if r.isEmpty || !(r.all Char.isDigit) then none else some (-(digitsToNat r : ℤ))
    | _ => if l.isEmpty || !(l.all Char.isDigit) then none else some (digitsToNat l : ℤ)
  match signed with
  | none => none
  | some v => if v < -(2 ^ 31) || 2 ^ 31 - 1 < v then none else some v

/-! ## Model of `src/parser.rs` -/

/-- `parse_scientific` from `src/parser.rs`: if the (lowercased) input
contains the letter `e`, parse the whole string as a float literal. -/
def parse_scientific (s : String) : Option ℚ :=
  if s.toList.any (fun c => c == 'e') then rustParseF64 s.toList else none

/-- The word-suffix table of `parse_word_suffix`, in source order. -/
def wordSuffixes : List (List Char × ℚ) :=
  [("trillion".toList, 1000000000000),
   ("billion".toList, 1000000000),
   ("million".toList, 1000000),
   ("thousand".toList, 1000)]

/-- `parse_word_suffix` from `src/parser.rs`: the first suffix the input ends
with commits the parse (the `?` operator aborts the whole function if the
prefix before the committed suffix does not parse). -/
def parse_word_suffix (s : String) : Option ℚ :=
  let l := s.toList
  match wordSuffixes.find? (fun p => endsWithL l p.1) with
  | none => none
  | some p =>
    match rustParseF64 (trimChars (stripSuffixL l p.1.length)) with
    | none => none
    | some num => some (num * p.2)

/-- `parse_letter_suffix` from `src/parser.rs`: last character selects a
multiplier; the trimmed prefix must be non-empty and parse as a float. -/
def parse_letter_suffix (s : String) : Option ℚ :=
  let l := s.toList
  match l.getLast? with
  | none => none
  | some last_char =>
    let multiplier : Option ℚ :=
      if last_char == 't' then some 1000000000000
      else if last_char == 'b' then some 1000000000
      else if last_char == 'm' then some 1000000
      else if last_char == 'k' then some 1000
      else none
    match multiplier with
    | none => none
    | some m =>
      let num_part := trimChars (stripSuffixL l 1)
      if num_part.isEmpty then none
      else
        match rustParseF64 num_part with
        | none => none
        | some num => some (num * m)

/-- `parse_caret_notation` from `src/parser.rs` (the `_notation` part of the
source name is dropped here): rewrite `×` and `*` to `x`, strip spaces,
split on `x10^` into exactly two parts, parse mantissa and `i32` exponent.
The source's redundant `contains("x10^")` pre-check is subsumed by the
`parts.len() == 2` check (no occurrence gives a single part). -/
def parse_caret (s : String) : Option ℚ :=
  let l := (s.toList.map (fun c => if c == '×' || c == '*' then 'x' else c)).filter
    (fun c => c != ' ')
  match splitOnL l "x10^".toList with
  | [a, b] =>
    match rustParseF64 a with
    | none => none
    | some mantissa =>
      match rustParseI32 b with
      | none => none
      | some exponent => some (mantissa * 10 ^ exponent)
  | _ => none

/-- The final plain-number rule of `parse_answer`: strip commas and spaces,
parse the remainder as a float literal. -/
def parse_plain (s : String) : Option ℚ :=
  rustParseF64 ((s.toList.filter (fun c => c != ',')).filter (fun c => c != ' '))

/-- Body of `parse_answer` after trimming/lowercasing: empty input is
rejected, then the five rules are tried in source order, first `Some` wins. -/
def parse_core (t : String) : Option ℚ :=
  if t.toList.isEmpty then none
  else
    match parse_scientific t with
    | some val => some val
    | none =>
      match parse_word_suffix t with
      | some val => some val
      | none =>
        match parse_letter_suffix t with
        | some val => some val
        | none =>
          match parse_caret t with
          | some val => some val
          | none => parse_plain t

/-- `parse_answer` from `src/parser.rs`. -/
def parse_answer (input : String) : Option ℚ :=
  parse_core (normalize_input input)

/-! ## Model of `src/scoring.rs` -/

/-- The exact rational value of `f64::MAX`, returned by `oom_distance` as the
sentinel for non-positive arguments. -/
def f64_MAX : ℝ := 2 ^ 1024 - 2 ^ 971

open Classical in
/-- `oom_distance` from `src/scoring.rs`: sentinel `f64::MAX` if either
argument is non-positive, otherwise the absolute base-10 log distance. -/
noncomputable def oom_distance (user_answer correct_answer : ℝ) : ℝ :=
  if user_answer ≤ 0 ∨ correct_answer ≤ 0 then f64_MAX
  else |Real.logb 10 user_answer - Real.logb 10 correct_answer|

/-- `ScoreResult` from `src/scoring.rs`. -/
inductive ScoreResult
  | Exact
  | Close
  | Partial
  | Wrong
deriving DecidableEq, Repr

/-- `ScoreResult::points` from `src/scoring.rs`. -/
def ScoreResult.points : ScoreResult → ℕ
  | .Exact => 100
  | .Close => 75
  | .Partial => 25
  | .Wrong => 0

/-- `ScoreResult::label` from `src/scoring.rs`. -/
def ScoreResult.label : ScoreResult → String
  | .Exact => "Exact!"
  | .Close => "Close!"
  | .Partial => "Partial"
  | .Wrong => "Off"

open Classical in
/-- `evaluate` from `src/scoring.rs`: ascending-threshold classification of
the order-of-magnitude distance. -/
noncomputable def evaluate (user_answer correct_answer : ℝ) : ScoreResult :=
  let distance := oom_distance user_answer correct_answer
  if distance ≤ 0.1 then ScoreResult.Exact
  else if distance ≤ 0.5 then ScoreResult.Close
  else if distance ≤ 1.0 then ScoreResult.Partial
  else ScoreResult.Wrong

/-- Structural model of the strings returned by `format_oom_difference`:
either the literal `"Spot on!"`, or `"{distance:.1} OOM {direction}"`, kept
as the exact distance plus the direction word (the rendering of the number
to one decimal place is presentation and is not modelled digit-by-digit). -/
inductive FormattedDiff
  | spotOn
  | oomOff (distance : ℝ) (direction : String)

open Classical in
/-- `format_oom_difference` from `src/scoring.rs`. -/
noncomputable def format_oom_difference (user_answer correct_answer : ℝ) : FormattedDiff :=
  let distance := oom_distance user_answer correct_answer
  if distance < 0.01 then FormattedDiff.spotOn
  else FormattedDiff.oomOff distance (if user_answer > correct_answer then "high" else "low")

/-! ## Model of `src/challenge.rs` -/

/-- `Challenge` from `src/challenge.rs`. -/
structure Challenge where
  num1 : ℚ
  num2 : ℚ
  is_division : Bool
deriving DecidableEq, Repr

/-- `Challenge::answer` from `src/challenge.rs`. -/
def Challenge.answer (c : Challenge) : ℚ :=
  if c.is_division then c.num1 / c.num2 else c.num1 * c.num2

/-- Modelled from the spec: the seeded PRNG stream.  The source draws from
`ChaCha8Rng::seed_from_u64(seed)` (the `rand_chacha`/`rand` crates, which are
not under `src/`); the spec requires only a reproducible deterministic
64-bit stream ("the generator must be reproducible: same seed and same call
sequence always yields the same output sequence").  The stream is modelled
as a concrete stable 64-bit mixing function (splitmix64-style) of the seed
and the draw index. -/
def rngWord (seed i : ℕ) : ℕ :=
  let z := (seed + (i + 1) * 11400714819323198485) % 2 ^ 64
  let z := ((z ^^^ (z >>> 30)) * 13787848793156543929) % 2 ^ 64
  let z := ((z ^^^ (z >>> 27)) * 10723151780598845931) % 2 ^ 64
  (z ^^^ (z >>> 31)) % 2 ^ 64

/-- Modelled from the spec: `rng.gen_range(lo..=hi)` for integers — a draw
uniform over the inclusive range, hence some value with `lo ≤ v ≤ hi`. -/
def gen_range_int (lo hi : ℕ) (w : ℕ) : ℕ :=
  lo + w % (hi - lo + 1)

/-- Modelled from the spec: `rng.gen_range(lo..hi)` for floats — a draw in
the half-open range `[lo, hi)`, modelled with 53-bit granularity. -/
def gen_range_rat (lo hi : ℚ) (w : ℕ) : ℚ :=
  lo + (hi - lo) * ((w % 2 ^ 53 : ℕ) : ℚ) / 2 ^ 53

/-- Modelled from the spec: `rng.gen_bool(0.3)` — a Bernoulli draw with
success probability 0.30. -/
def gen_bool_draw (w : ℕ) : Bool :=
  decide ((w % 2 ^ 53 : ℕ) < 3 * 2 ^ 53 / 10)

/-- Model of Rust `f64::round` (round half away from zero) on exact values. -/
def rust_round (x : ℚ) : ℤ :=
  if 0 ≤ x then ⌊x + 1 / 2⌋ else -⌊-x + 1 / 2⌋

/-- `generate_number` from `src/challenge.rs`: exponent uniform in `3..=9`,
mantissa uniform in `1.1..9.9` rounded to one decimal place, value
`mantissa * 10^exp`.  Draw order (exponent, then mantissa) is preserved;
`i` is the index of the first stream draw this call consumes. -/
def generate_number (seed i : ℕ) : ℚ :=
  let exp := gen_range_int 3 9 (rngWord seed i)
  let mantissa0 := gen_range_rat (11 / 10) (99 / 10) (rngWord seed (i + 1))
  let mantissa := (rust_round (mantissa0 * 10) : ℚ) / 10
  mantissa * 10 ^ exp

/-- `generate_single` from `src/challenge.rs`: draws `num1`, `num2`,
`is_division` in that order (5 stream draws starting at index `i`). -/
def generate_single (seed i : ℕ) : Challenge :=
  { num1 := generate_number seed i
    num2 := generate_number seed (i + 2)
    is_division := gen_bool_draw (rngWord seed (i + 4)) }

/-- `generate_challenges` from `src/challenge.rs`: a fresh stream seeded only
from `seed`, then `count` challenges generated in order. -/
def generate_challenges (seed count : ℕ) : List Challenge :=
  (List.range count).map (fun j => generate_single seed (5 * j))

/-- The shape invariant of a generated operand: positive, of the form
`(rounded one-decimal mantissa) * 10^e` with the raw mantissa drawn in
`[1.1, 9.9)` and `e` an integer in `[3, 9]`, hence in `[10^3, 9.9 * 10^9]`. -/
def mantissa_exponent_form (v : ℚ) : Prop :=
  0 < v ∧ 1000 ≤ v ∧ v ≤ 99 / 10 * 10 ^ (9 : ℕ) ∧
    ∃ e : ℕ, ∃ raw : ℚ, 3 ≤ e ∧ e ≤ 9 ∧ 11 / 10 ≤ raw ∧ raw < 99 / 10 ∧
      v = ((rust_round (raw * 10) : ℚ) / 10) * 10 ^ e

/-! ## Model of `get_daily_seed` from `src/challenge.rs` -/

/-- Zero-padding to two digits, the `{:02}` format specifier. -/
def pad2 (n : ℕ) : String :=
  if n < 10 then "0" ++ toString n else toString n

/-- The date string built by `get_daily_seed` in `src/challenge.rs`:
`format!("{year}-{month:02}-{day:02}")` — month AND day zero-padded. -/
def date_string (year month day : ℕ) : String :=
  toString year ++ "-" ++ pad2 month ++ "-" ++ pad2 day

/-- The date string as the specification's words describe it:
`"{year}-{month:02}-{day}"` — day NOT zero-padded.  Stated from the spec
only, to be compared with `date_string` from the source. -/
def date_string_claim (year month day : ℕ) : String :=
  toString year ++ "-" ++ pad2 month ++ "-" ++ toString day

/-- Modelled from the spec: the 64-bit hash of the date string.  The source
uses `std::collections::hash_map::DefaultHasher` (SipHash-1-3, standard
library code not under `src/`); the spec requires only "a stable,
well-specified 64-bit hash function" and says the exact algorithm is not a
correctness requirement.  Modelled as FNV-1a 64. -/
def stableHash64 (s : String) : ℕ :=
  s.toList.foldl (fun h c => ((h ^^^ c.toNat) * 1099511628211) % 2 ^ 64)
    14695981039346656037

/-- `get_daily_seed` from `src/challenge.rs`, with the calendar date injected
as arguments.  Modelled from the spec: the source obtains the date from the
environment clock (`js_sys::Date::new_0()`, a WASM binding not under `src/`
and outside a pure embedding); spec §9 prescribes replacing the clock read
with an explicitly supplied calendar date. -/
def get_daily_seed (year month day : ℕ) : ℕ :=
  stableHash64 (date_string year month day)

/-! ## Helper lemmas for the scoring model -/

theorem f64_MAX_gt_one : (1 : ℝ) < f64_MAX := by
  unfold f64_MAX; norm_num

theorem oom_distance_of_nonpos {u c : ℝ} (h : u ≤ 0 ∨ c ≤ 0) :
    oom_distance u c = f64_MAX := by
  unfold oom_distance; exact if_pos h

theorem oom_distance_of_pos {u c : ℝ} (hu : 0 < u) (hc : 0 < c) :
    oom_distance u c = |Real.logb 10 u - Real.logb 10 c| := by
  unfold oom_distance
  rw [if_neg]
  rintro (h | h) <;> linarith

theorem oom_distance_self {u : ℝ} (hu : 0 < u) : oom_distance u u = 0 := by
  rw [oom_distance_of_pos hu hu, sub_self, abs_zero]

open Classical in
theorem evaluate_eq (u c : ℝ) :
    evaluate u c =
      if oom_distance u c ≤ 0.1 then ScoreResult.Exact
      else if oom_distance u c ≤ 0.5 then ScoreResult.Close
      else if oom_distance u c ≤ 1.0 then ScoreResult.Partial
      else ScoreResult.Wrong := rfl

open Classical in
theorem format_oom_difference_eq (u c : ℝ) :
    format_oom_difference u c =
      if oom_distance u c < 0.01 then FormattedDiff.spotOn
      else FormattedDiff.oomOff (oom_distance u c)
        (if u > c then "high" else "low") := rfl

/-! ## Claim theorems for `src/scoring.rs` -/

/-- C1: `evaluate(user, correct)` computes the oom distance and maps it by
fixed thresholds in ascending order, each inclusive of its upper bound:
distance ≤ 0.1 yields `Exact` (100 points), ≤ 0.5 yields `Close`
(75 points), ≤ 1.0 yields `Partial` (25 points), any larger distance yields
`Wrong` (0 points); exactly 0.5 classifies as `Close`, exactly 1.0 as
`Partial`. -/
theorem C1_evaluate_thresholds (u c : ℝ) :
    (oom_distance u c ≤ 0.1 → evaluate u c = ScoreResult.Exact) ∧
    (0.1 < oom_distance u c → oom_distance u c ≤ 0.5 →
      evaluate u c = ScoreResult.Close) ∧
    (0.5 < oom_distance u c → oom_distance u c ≤ 1.0 →
      evaluate u c = ScoreResult.Partial) ∧
    (1.0 < oom_distance u c → evaluate u c = ScoreResult.Wrong) ∧
    (oom_distance u c = 0.5 → evaluate u c = ScoreResult.Close) ∧
    (oom_distance u c = 1.0 → evaluate u c = ScoreResult.Partial) ∧
    ScoreResult.Exact.points = 100 ∧ ScoreResult.Close.points = 75 ∧
    ScoreResult.Partial.points = 25 ∧ ScoreResult.Wrong.points = 0 := by
  refine ⟨?_, ?_, ?_, ?_, ?_, ?_, rfl, rfl, rfl, rfl⟩
  · intro h1; rw [evaluate_eq, if_pos h1]
  · intro h1 h2; rw [evaluate_eq, if_neg (by linarith), if_pos h2]
  · intro h1 h2
    rw [evaluate_eq, if_neg (by linarith), if_neg (by linarith), if_pos h2]
  · intro h1
    rw [evaluate_eq, if_neg (by linarith), if_neg (by linarith),
      if_neg (by linarith)]
  · intro h1
    rw [evaluate_eq, if_neg (by rw [h1]; norm_num), if_pos h1.le]
  · intro h1
    rw [evaluate_eq, if_neg (by rw [h1]; norm_num),
      if_neg (by rw [h1]; norm_num), if_pos h1.le]

/-- Witness for C1 at the concrete input `(1e6, 1e6)`: distance 0, tier
`Exact`. -/
theorem C1_evaluate_thresholds_witness :
    evaluate 1000000 1000000 = ScoreResult.Exact :=
  (C1_evaluate_thresholds 1000000 1000000).1
    (by rw [oom_distance_self (by norm_num : (0:ℝ) < 1000000)]; norm_num)

/-- C2: with either argument ≤ 0, `oom_distance` returns the maximal
sentinel (`f64::MAX`) regardless of the other argument and `evaluate`
returns `Wrong`; for positive arguments the result is
`|log10(user) - log10(correct)|` (the `log10` calls are behind the ≤ 0
guard, which the positivity hypotheses of the second conjunct mirror). -/
theorem C2_oom_distance_sentinel (u c : ℝ) :
    ((u ≤ 0 ∨ c ≤ 0) →
      oom_distance u c = f64_MAX ∧ evaluate u c = ScoreResult.Wrong) ∧
    (0 < u → 0 < c →
      oom_distance u c = |Real.logb 10 u - Real.logb 10 c|) := by
  constructor
  · intro h
    have hd := oom_distance_of_nonpos h
    have h1 : (1 : ℝ) < f64_MAX := f64_MAX_gt_one
    refine ⟨hd, ?_⟩
    rw [evaluate_eq, hd, if_neg (by linarith), if_neg (by linarith),
      if_neg (by linarith)]
  · exact fun hu hc => oom_distance_of_pos hu hc

/-- Witness for C2 at the concrete input `(-1, 5)`: sentinel distance and
the `Wrong` tier. -/
theorem C2_oom_distance_sentinel_witness :
    oom_distance (-1) 5 = f64_MAX ∧ evaluate (-1) 5 = ScoreResult.Wrong :=
  (C2_oom_distance_sentinel (-1) 5).1 (Or.inl (by norm_num))

/-- C8: `oom_distance` is symmetric in its two arguments; in particular at
`(1e6, 1e7)` and `(1e7, 1e6)`. -/
theorem C8_oom_distance_symm :
    (∀ u c : ℝ, oom_distance u c = oom_distance c u) ∧
    oom_distance 1000000 10000000 = oom_distance 10000000 1000000 := by
  have h : ∀ u c : ℝ, oom_distance u c = oom_distance c u := by
    intro u c
    unfold oom_distance
    by_cases hu : u ≤ 0 <;> by_cases hc : c ≤ 0 <;>
      simp [hu, hc, abs_sub_comm]
  exact ⟨h, h 1000000 10000000⟩

/-- C10: with either argument ≤ 0, `format_oom_difference` never returns the
"Spot on!" message: the distance is the sentinel `f64::MAX` ≥ 0.01, so the
result carries the sentinel distance annotated "high" if `user > correct`
and "low" otherwise. -/
theorem C10_format_nonpos (u c : ℝ) (h : u ≤ 0 ∨ c ≤ 0) :
    format_oom_difference u c ≠ FormattedDiff.spotOn ∧
    (u > c → format_oom_difference u c = FormattedDiff.oomOff f64_MAX "high") ∧
    (¬ u > c → format_oom_difference u c = FormattedDiff.oomOff f64_MAX "low") ∧
    (0.01 : ℝ) ≤ f64_MAX := by
  have hd := oom_distance_of_nonpos h
  have hbig : (0.01 : ℝ) ≤ f64_MAX := le_trans (by norm_num) f64_MAX_gt_one.le
  have hnot : ¬ oom_distance u c < 0.01 := by rw [hd]; exact not_lt.mpr hbig
  refine ⟨?_, ?_, ?_, hbig⟩
  · rw [format_oom_difference_eq, if_neg hnot]
    exact fun hcon => FormattedDiff.noConfusion hcon
  · intro hgt
    rw [format_oom_difference_eq, if_neg hnot, hd, if_pos hgt]
  · intro hgt
    rw [format_oom_difference_eq, if_neg hnot, hd, if_neg hgt]

/-- Witness for C10 at the concrete input `(0, 1)`: not "Spot on!", sentinel
distance annotated "low". -/
theorem C10_format_nonpos_witness :
    format_oom_difference 0 1 ≠ FormattedDiff.spotOn ∧
    format_oom_difference 0 1 = FormattedDiff.oomOff f64_MAX "low" :=
  ⟨(C10_format_nonpos 0 1 (Or.inl le_rfl)).1,
   (C10_format_nonpos 0 1 (Or.inl le_rfl)).2.2.1 (by norm_num)⟩

/-! ## Claim theorems for `src/parser.rs`

The Batteries rational operations are `@[irreducible]` by default; they are
made locally reducible here so `decide` can evaluate concrete parses. -/

section RatEval

attribute [local semireducible] Rat.add Rat.mul Rat.inv Rat.sub Rat.ofScientific

/-- C5: the known-value test vector of the spec: `"4e11"`, `"400 billion"`,
`"400B"`, `"4x10^11"` and `"400,000,000,000"` all parse to `4e11`
(= 400000000000), while `""` and `"banana"` parse to `None`. -/
theorem C5_known_values :
    parse_answer "4e11" = some 400000000000 ∧
    parse_answer "400 billion" = some 400000000000 ∧
    parse_answer "400B" = some 400000000000 ∧
    parse_answer "4x10^11" = some 400000000000 ∧
    parse_answer "400,000,000,000" = some 400000000000 ∧
    parse_answer "" = none ∧
    parse_answer "banana" = none := by decide

/-- C6 counterexample: on input `"3e3b"` the scientific-notation trigger is
met (the text contains `'e'`), the scientific parse fails, and yet
`parse_answer` returns the value of the LATER letter-suffix rule
(3000 × 1e9) — so a met trigger does NOT stop evaluation, refuting the
claim that no later rule can return a value. -/
theorem C6_counterexample :
    (normalize_input "3e3b").toList.any (fun c => c == 'e') = true ∧
    parse_scientific (normalize_input "3e3b") = none ∧
    parse_letter_suffix (normalize_input "3e3b") = some 3000000000000 ∧
    parse_answer "3e3b" = some 3000000000000 := by decide

/-- C6 (amended): the five rules are tried in the fixed source order and the
first rule to SUCCEED wins; a rule whose trigger matches but whose parse
fails returns `None` and evaluation falls through to the later rules, whose
value is then returned. -/
theorem C6_amended_fallthrough (s : String)
    (hne : (normalize_input s).toList.isEmpty = false) :
    (∀ v, parse_scientific (normalize_input s) = some v →
      parse_answer s = some v) ∧
    (parse_scientific (normalize_input s) = none →
      ∀ v, parse_word_suffix (normalize_input s) = some v →
        parse_answer s = some v) ∧
    (parse_scientific (normalize_input s) = none →
      parse_word_suffix (normalize_input s) = none →
      ∀ v, parse_letter_suffix (normalize_input s) = some v →
        parse_answer s = some v) ∧
    (parse_scientific (normalize_input s) = none →
      parse_word_suffix (normalize_input s) = none →
      parse_letter_suffix (normalize_input s) = none →
      ∀ v, parse_caret (normalize_input s) = some v →
        parse_answer s = some v) ∧
    (parse_scientific (normalize_input s) = none →
      parse_word_suffix (normalize_input s) = none →
      parse_letter_suffix (normalize_input s) = none →
      parse_caret (normalize_input s) = none →
      parse_answer s = parse_plain (normalize_input s)) := by
  refine ⟨?_, ?_, ?_, ?_, ?_⟩ <;> intros <;>
    simp_all [parse_answer, parse_core]

/-- Witness for the amended C6 at the concrete input `"3e3b"`: the scientific
trigger fires and fails, the word-suffix rule fails, and the letter-suffix
value is returned. -/
theorem C6_amended_fallthrough_witness :
    parse_answer "3e3b" = some 3000000000000 :=
  (C6_amended_fallthrough "3e3b" (by decide)).2.2.1 (by decide) (by decide)
    3000000000000 (by decide)

/-- C9: an input that trims and lowercases to a bare suffix letter
(`"t"`, `"b"`, `"m"` or `"k"`) parses to `None`: the letter-suffix branch
rejects the empty numeric prefix and no other branch accepts the input. -/
theorem C9_bare_suffix_none (s : String)
    (h : normalize_input s = "t" ∨ normalize_input s = "b" ∨
      normalize_input s = "m" ∨ normalize_input s = "k") :
    parse_answer s = none ∧ parse_letter_suffix (normalize_input s) = none := by
  rcases h with h | h | h | h <;> simp only [parse_answer, h] <;> decide

/-- Witness for C9 at the concrete input `" B "` (upper case, padded), which
normalizes to the bare suffix `"b"`. -/
theorem C9_bare_suffix_none_witness :
    parse_answer " B " = none ∧
    parse_letter_suffix (normalize_input " B ") = none :=
  C9_bare_suffix_none " B " (Or.inr (Or.inl (by decide)))

end RatEval

/-! ## Helper lemmas for the challenge generator -/

theorem gen_range_int_bounds (w : ℕ) :
    3 ≤ gen_range_int 3 9 w ∧ gen_range_int 3 9 w ≤ 9 := by
  unfold gen_range_int
  have : w % 7 < 7 := Nat.mod_lt _ (by norm_num)
  omega

theorem gen_range_rat_bounds (w : ℕ) :
    11 / 10 ≤ gen_range_rat (11 / 10) (99 / 10) w ∧
    gen_range_rat (11 / 10) (99 / 10) w < 99 / 10 := by
  unfold gen_range_rat
  have hn : ((w % 2 ^ 53 : ℕ) : ℚ) < 2 ^ 53 := by
    exact_mod_cast Nat.mod_lt _ (by positivity)
  have hn0 : (0 : ℚ) ≤ ((w % 2 ^ 53 : ℕ) : ℚ) := Nat.cast_nonneg _
  have h1 : ((w % 2 ^ 53 : ℕ) : ℚ) / 2 ^ 53 < 1 := by
    rw [div_lt_one (by positivity)]; exact hn
  constructor
  · have : (0 : ℚ) ≤ (99 / 10 - 11 / 10) * ((w % 2 ^ 53 : ℕ) : ℚ) / 2 ^ 53 := by
      positivity
    linarith
  · have : (99 / 10 - 11 / 10 : ℚ) * ((w % 2 ^ 53 : ℕ) : ℚ) / 2 ^ 53
        < (99 / 10 - 11 / 10) * 1 := by
      rw [mul_div_assoc]
      exact mul_lt_mul_of_pos_left h1 (by norm_num)
    linarith

theorem rust_round_bounds {x : ℚ} (h1 : 11 ≤ x) (h2 : x < 99) :
    11 ≤ rust_round x ∧ rust_round x ≤ 99 := by
  unfold rust_round
  rw [if_pos (by linarith : (0 : ℚ) ≤ x)]
  constructor
  · exact Int.le_floor.mpr (by push_cast; linarith)
  · have : ⌊x + 1 / 2⌋ < 100 := Int.floor_lt.mpr (by push_cast; linarith)
    omega

theorem generate_number_form (seed i : ℕ) :
    mantissa_exponent_form (generate_number seed i) := by
  have he := gen_range_int_bounds (rngWord seed i)
  have hm := gen_range_rat_bounds (rngWord seed (i + 1))
  have hk := rust_round_bounds
    (x := gen_range_rat (11 / 10) (99 / 10) (rngWord seed (i + 1)) * 10)
    (by linarith [hm.1]) (by linarith [hm.2])
  have hk1 : (11 : ℚ) ≤
      ((rust_round (gen_range_rat (11 / 10) (99 / 10) (rngWord seed (i + 1)) * 10) : ℤ) : ℚ) := by
    exact_mod_cast hk.1
  have hk2 : ((rust_round (gen_range_rat (11 / 10) (99 / 10) (rngWord seed (i + 1)) * 10) : ℤ) : ℚ)
      ≤ 99 := by
    exact_mod_cast hk.2
  have hlo : (10 : ℚ) ^ (3 : ℕ) ≤ 10 ^ gen_range_int 3 9 (rngWord seed i) :=
    pow_le_pow_right₀ (by norm_num) he.1
  have hhi : (10 : ℚ) ^ gen_range_int 3 9 (rngWord seed i) ≤ 10 ^ (9 : ℕ) :=
    pow_le_pow_right₀ (by norm_num) he.2
  have hval : generate_number seed i
      = ((rust_round (gen_range_rat (11 / 10) (99 / 10) (rngWord seed (i + 1)) * 10) : ℤ) : ℚ)
        / 10 * 10 ^ gen_range_int 3 9 (rngWord seed i) := rfl
  unfold mantissa_exponent_form
  rw [hval]
  have hkpos : (0 : ℚ) <
      ((rust_round (gen_range_rat (11 / 10) (99 / 10) (rngWord seed (i + 1)) * 10) : ℤ) : ℚ)
        / 10 := by
    linarith
  have hpow_pos : (0 : ℚ) < 10 ^ gen_range_int 3 9 (rngWord seed i) := by positivity
  refine ⟨mul_pos hkpos hpow_pos, ?_, ?_, gen_range_int 3 9 (rngWord seed i),
    gen_range_rat (11 / 10) (99 / 10) (rngWord seed (i + 1)),
    he.1, he.2, hm.1, hm.2, rfl⟩
  · calc (1000 : ℚ) ≤ 11 / 10 * 10 ^ (3 : ℕ) := by norm_num
      _ ≤ _ := mul_le_mul (by linarith) hlo (by positivity) (by linarith)
  · calc _ ≤ (99 / 10 : ℚ) * 10 ^ (9 : ℕ) :=
        mul_le_mul (by linarith) hhi (by positivity) (by norm_num)
      _ = 99 / 10 * 10 ^ (9 : ℕ) := rfl

/-! ## Claim theorems for `src/challenge.rs` -/

section RatEvalGen

attribute [local semireducible] Rat.add Rat.mul Rat.inv Rat.sub Rat.ofScientific

/-- C3 counterexample: with the modelled stream at seed 593, the first
generated challenge has `num1 = 9.9e9` (raw mantissa in `[9.85, 9.9)`
rounds to 9.9, exponent 9), and `9.9e9` is NOT below `10^9.9 ≈ 7.94e9` —
so a generated value can lie outside the claimed range `[10^3, 10^9.9)`. -/
theorem C3_counterexample :
    generate_single 593 0 ∈ generate_challenges 593 1 ∧
    ¬ (((generate_single 593 0).num1 : ℝ) < (10 : ℝ) ^ ((99 : ℝ) / 10)) := by
  constructor
  · simp [generate_challenges]
  · have hval : (generate_single 593 0).num1 = 9900000000 := by decide
    rw [not_lt, hval]
    have hcast : (((9900000000 : ℚ)) : ℝ) = 9900000000 := by norm_num
    rw [hcast]
    have hpow : ((10 : ℝ) ^ ((99 : ℝ) / 10)) ^ (10 : ℕ) = (10 : ℝ) ^ (99 : ℕ) := by
      rw [← Real.rpow_natCast ((10 : ℝ) ^ ((99 : ℝ) / 10)) 10,
        ← Real.rpow_mul (by norm_num : (0 : ℝ) ≤ 10),
        show ((99 : ℝ) / 10) * ((10 : ℕ) : ℝ) = ((99 : ℕ) : ℝ) by push_cast; norm_num,
        Real.rpow_natCast]
    have hlt : ((10 : ℝ) ^ ((99 : ℝ) / 10)) ^ (10 : ℕ)
        < (9900000000 : ℝ) ^ (10 : ℕ) := by
      rw [hpow]; norm_num
    exact le_of_lt (lt_of_pow_lt_pow_left₀ 10 (by norm_num) hlt)

/-- C3 (amended): every operand of every generated challenge is of the form
`(mantissa rounded to one decimal) * 10^e` with the raw mantissa drawn from
`[1.1, 9.9)` and `e` an integer in `[3, 9]`; in particular the operands are
positive and lie in `[10^3, 9.9 * 10^9]` (closed upper bound: rounding can
reach the mantissa 9.9 exactly). -/
theorem C3_generated_operands (seed count : ℕ) (c : Challenge)
    (hc : c ∈ generate_challenges seed count) :
    mantissa_exponent_form c.num1 ∧ mantissa_exponent_form c.num2 := by
  unfold generate_challenges at hc
  simp only [List.mem_map, List.mem_range] at hc
  obtain ⟨j, hj, rfl⟩ := hc
  exact ⟨generate_number_form seed (5 * j), generate_number_form seed (5 * j + 2)⟩

/-- Witness for the amended C3 at seed 0, count 1, on the single generated
challenge. -/
theorem C3_generated_operands_witness :
    mantissa_exponent_form (generate_single 0 0).num1 ∧
    mantissa_exponent_form (generate_single 0 0).num2 :=
  C3_generated_operands 0 1 (generate_single 0 0) (by simp [generate_challenges])

/-- C4: `generate_challenges` is a deterministic function of `(seed, count)`
(the stream is re-derived from the seed argument alone), the result has
exactly `count` items, and `count = 0` yields the empty list rather than an
error. -/
theorem C4_deterministic (s1 s2 c1 c2 : ℕ) (hs : s1 = s2) (hc : c1 = c2) :
    generate_challenges s1 c1 = generate_challenges s2 c2 ∧
    (generate_challenges s1 c1).length = c1 ∧
    generate_challenges s1 0 = [] := by
  subst hs; subst hc
  refine ⟨rfl, ?_, rfl⟩
  simp [generate_challenges]

/-- Witness for C4 at seed 7, count 3. -/
theorem C4_deterministic_witness :
    generate_challenges 7 3 = generate_challenges 7 3 ∧
    (generate_challenges 7 3).length = 3 ∧
    generate_challenges 7 0 = [] :=
  C4_deterministic 7 7 3 3 rfl rfl

end RatEvalGen

/-! ## Claim theorems for `get_daily_seed` -/

/-- C7 counterexample: the source formats the date as
`"{year}-{month:02}-{day:02}"` (day zero-padded), not as the claimed
`"{year}-{month:02}-{day}"`: at 2024-01-05 the two formats disagree
(`"2024-01-05"` vs `"2024-01-5"`) and hash to different seeds. -/
theorem C7_counterexample :
    date_string 2024 1 5 ≠ date_string_claim 2024 1 5 ∧
    get_daily_seed 2024 1 5 ≠ stableHash64 (date_string_claim 2024 1 5) := by
  decide

/-- C7 (amended): the daily seed is the stable 64-bit hash of the date
formatted as `"{year}-{month:02}-{day:02}"` — month AND day zero-padded —
and is a pure function of the date components (same date, same seed).  In
the source the date itself comes from the environment clock; it is injected
here as arguments, as the spec prescribes for a pure reimplementation. -/
theorem C7_daily_seed (year month day : ℕ) :
    get_daily_seed year month day = stableHash64 (date_string year month day) ∧
    (month < 10 → pad2 month = "0" ++ toString month) ∧
    (day < 10 → pad2 day = "0" ++ toString day) ∧
    (10 ≤ day → pad2 day = toString day) ∧
    (∀ y2 m2 d2, year = y2 → month = m2 → day = d2 →
      get_daily_seed year month day = get_daily_seed y2 m2 d2) := by
  refine ⟨rfl, ?_, ?_, ?_, ?_⟩
  · intro h; unfold pad2; rw [if_pos h]
  · intro h; unfold pad2; rw [if_pos h]
  · intro h; unfold pad2; rw [if_neg (by omega)]
  · intro y2 m2 d2 h1 h2 h3; subst h1; subst h2; subst h3; rfl

/-- Witness for the amended C7 at the date 2024-01-05. -/
theorem C7_daily_seed_witness :
    get_daily_seed 2024 1 5 = stableHash64 (date_string 2024 1 5) ∧
    pad2 5 = "0" ++ toString 5 :=
  ⟨(C7_daily_seed 2024 1 5).1, (C7_daily_seed 2024 1 5).2.2.1 (by norm_num)⟩
